import Mathlib

/-!
Verification of the auto-update-example repository (Go): a self-updating CLI
supervisor (pokemon/pokemon.go), a version-publishing server
(server/pokemon-server.go) and shared semantic-version utilities (common.go).

The Go code is shallowly embedded: pure functions become Lean functions on
Nat/String (uint64 arithmetic is modelled as Nat with explicit reduction
modulo 2^64 where Go wraps), fallible operations return Except or pair an
Option error, and the I/O environment of an operation (HTTP responses,
filesystem outcomes) is passed in explicitly as data.
-/

namespace Pokemon

/-- Modulus of Go's uint64 arithmetic. -/
def UINT64_MOD : Nat := 2 ^ 64

/-- SemVer from common.go: three numeric components (Go uint64, modelled as
Nat values < 2^64 produced by wrapping arithmetic) plus the original string. -/
structure SemVer where
  major : Nat
  minor : Nat
  patch : Nat
  str : String
deriving Repr, DecidableEq

/-- Function e from common.go: starts at 1 and multiplies by 10 n times in
uint64 (wrapping) arithmetic, i.e. computes 10^n modulo 2^64. The Go early
return for e == 0 coincides with running the loop zero times. -/
def e : Nat → Nat
  | 0 => 1
  | n + 1 => e n * 10 % UINT64_MOD

/-- Digit test from ParseSemVer: ASCII between 0 and 9 inclusive. -/
def isDigitChar (c : Char) : Bool := 48 ≤ c.toNat && c.toNat ≤ 57

/-- Body of the ParseSemVer scanning loop from common.go, which walks the
input from the last index down to index 0. State mirrors the Go locals:
lastDot is lastDotIndex, subVersion the wrapping uint64 accumulator,
subVersionIndex counts completed sections, requireDigit forbids a dot
immediately after a dot or at the very end, and patch/minor hold completed
sections. Returns (major, minor, patch, subVersionIndex) on success: the Go
code assigns Major from the final accumulator after the loop breaks at
index 0. Go indexes bytes while this model indexes characters; the two agree
on every input the parser accepts, since accepted inputs are pure ASCII. -/
def parseSemVerLoop (cs : List Char) (i lastDot subVersion subVersionIndex : Nat)
    (requireDigit : Bool) (patch minor : Nat) : Except String (Nat × Nat × Nat × Nat) :=
  match i with
  | 0 =>
    let c := cs.getD 0 ' '
    if isDigitChar c then
      Except.ok ((subVersion + (c.toNat - 48) * e lastDot % UINT64_MOD) % UINT64_MOD,
        minor, patch, subVersionIndex)
    else
      Except.error "not a semantic version; invalid character"
  | k + 1 =>
    let c := cs.getD (k + 1) ' '
    if requireDigit = false ∧ c = '.' then
      match subVersionIndex with
      | 0 => parseSemVerLoop cs k k 0 1 true subVersion minor
      | 1 => parseSemVerLoop cs k k 0 2 true patch subVersion
      | _ => Except.error "too many version sections"
    else if isDigitChar c then
      parseSemVerLoop cs k lastDot
        ((subVersion + (c.toNat - 48) * e (lastDot - (k + 1)) % UINT64_MOD) % UINT64_MOD)
        subVersionIndex false patch minor
    else
      Except.error "not a semantic version; invalid character"

/-- ParseSemVer from common.go: bounds the input size to [5, 255], scans from
the end accumulating dot-separated sections in wrapping uint64 arithmetic,
and requires exactly three sections (subVersionIndex = MAX_SUBVERSIONS - 1
after the loop). The String field keeps the original input. -/
def parseSemVer (version : String) : Except String SemVer :=
  let cs := version.toList
  let size := cs.length
  if 255 < size then Except.error (version ++ " too large")
  else if size < 5 then Except.error (version ++ " too small")
  else
    match parseSemVerLoop cs (size - 1) (size - 1) 0 0 true 0 0 with
    | Except.error msg => Except.error msg
    | Except.ok (major, minor, patch, subVersionIndex) =>
      if subVersionIndex = 2 then Except.ok ⟨major, minor, patch, version⟩
      else Except.error (version ++ " was truncated; expected 3 version sections")

/-- SemVers.Less from common.go, transcribed exactly as written, including
the comparisons of a.Major against b.Minor in the second and third guards. -/
def less (a b : SemVer) : Bool :=
  if a.major < b.major then true
  else if a.major = b.minor ∧ a.minor < b.minor then true
  else if a.major = b.minor ∧ a.minor = b.minor ∧ a.patch < b.patch then true
  else false

/-- Modelled from the spec: the comparison the spec describes for
SemVers.Less — major first, then minor, then patch, each numeric, equal
components falling through to the next. Used only to compare the code's
ordering against the specified one. -/
def specLexLess (a b : SemVer) : Bool :=
  if a.major ≠ b.major then decide (a.major < b.major)
  else if a.minor ≠ b.minor then decide (a.minor < b.minor)
  else decide (a.patch < b.patch)

/-- getLatestVersion from pokemon/pokemon.go. The HTTP fetch and JSON decode
are abstracted into the argument: Except.error for a failed request or a
body that does not decode, Except.ok with the decoded version list
otherwise. The Go code returns ("", err) when err is non-nil OR the decoded
list is empty — in the empty-list case err is nil, so the pair is ("", nil)
— and otherwise returns the last list element. Result models the Go pair
(version, error) as (String, Option String). -/
def getLatestVersion (resp : Except String (List String)) : String × Option String :=
  match resp with
  | Except.error err => ("", some err)
  | Except.ok versions =>
    if versions.length = 0 then ("", none)
    else (versions.getLastD "", none)

/-- The exeSuffix function from pokemon/pokemon.go: ".exe" on Windows and a
single space otherwise. -/
def exeSuffix (isWindows : Bool) : String := if isWindows then ".exe" else " "

/-- Final deterministic download path from downloadUpdateVersion:
filepath.Join(exeDir, "pokemon-" ++ version ++ exeSuffix). Join is modelled
as insertion of a single separator. -/
def updateFilePathOf (exeDir version : String) (isWindows : Bool) : String :=
  exeDir ++ "/pokemon-" ++ version ++ exeSuffix isWindows

/-- Error outcomes of downloadUpdateVersion, one per return point in the Go
code. sha512Mismatch carries the data of common.NewSha512Error: the final
path, the expected (server-declared) digest and the actual digest. -/
inductive DownloadError
  | emptyVersion
  | httpGetFailed
  | hashExistingFailed
  | sha512Mismatch (path expected actual : String)
  | openTempFailed
  | copyFailed
  | syncFailed
  | closeFailed
  | renameFailed
deriving Repr, DecidableEq

/-- Environment of one downloadUpdateVersion call: the outcome of each I/O
step the Go code performs, in source order. finalExists tells whether
os.Open on the final deterministic path succeeds (the alreadyExists case);
existingDigest is the Sha-512 of that existing file when hashing it
succeeds (existingHashOk); declaredDigest is the Sha-512 response header;
bodyDigest is the digest of the bytes streamed from the response body. -/
structure DownloadEnv where
  finalExists : Bool
  existingHashOk : Bool
  existingDigest : String
  httpOk : Bool
  declaredDigest : String
  openTempOk : Bool
  copyOk : Bool
  bodyDigest : String
  syncOk : Bool
  closeOk : Bool
  renameOk : Bool
deriving Repr, DecidableEq

deriving instance DecidableEq for Except

/-- Observable outcome of downloadUpdateVersion: the returned (path, error)
pair plus the filesystem effects: whether the HTTP GET was issued, whether
the temp file was created, whether a file remains at the temp path on exit
(the deferred os.Remove runs on every exit path after creation, and a
successful rename moves the file away, so this is false whenever the Go
function returns), and whether a file is present at the final deterministic
path on exit. -/
structure DownloadResult where
  result : Except DownloadError String
  httpRequested : Bool
  tempCreated : Bool
  tempLeft : Bool
  finalAtEnd : Bool
deriving Repr, DecidableEq

/-- downloadUpdateVersion from pokemon/pokemon.go, with each I/O outcome
drawn from the DownloadEnv. Branch order follows the source: the empty
version guard, os.Open on the final path, http.Get, the already-exists
verification path, temp-file creation, the streaming copy through the
hasher, the digest comparison, Sync, Close, and the atomic os.Rename. -/
def downloadUpdateVersion (env : DownloadEnv) (exeDir version : String)
    (isWindows : Bool) : DownloadResult :=
  let path := updateFilePathOf exeDir version isWindows
  if version = "" then
    ⟨Except.error DownloadError.emptyVersion, false, false, false, env.finalExists⟩
  else if env.httpOk = false then
    ⟨Except.error DownloadError.httpGetFailed, true, false, false, env.finalExists⟩
  else if env.finalExists then
    if env.existingHashOk = false then
      ⟨Except.error DownloadError.hashExistingFailed, true, false, false, true⟩
    else if env.declaredDigest ≠ env.existingDigest then
      ⟨Except.error (DownloadError.sha512Mismatch path env.declaredDigest env.existingDigest),
        true, false, false, true⟩
    else
      ⟨Except.ok path, true, false, false, true⟩
  else if env.openTempOk = false then
    ⟨Except.error DownloadError.openTempFailed, true, false, false, false⟩
  else if env.copyOk = false then
    ⟨Except.error DownloadError.copyFailed, true, true, false, false⟩
  else if env.declaredDigest ≠ env.bodyDigest then
    ⟨Except.error (DownloadError.sha512Mismatch path env.declaredDigest env.bodyDigest),
      true, true, false, false⟩
  else if env.syncOk = false then
    ⟨Except.error DownloadError.syncFailed, true, true, false, false⟩
  else if env.closeOk = false then
    ⟨Except.error DownloadError.closeFailed, true, true, false, false⟩
  else if env.renameOk = false then
    ⟨Except.error DownloadError.renameFailed, true, true, false, false⟩
  else
    ⟨Except.ok path, true, true, false, true⟩

/-- Child process handle (the Cmd struct of pokemon/pokemon.go); id gives
the OS process identity so that kill/start events can name it. The Go zero
value Cmd{} is modelled as (none : Option ChildCmd), with Version and Path
of the zero value reading as "". -/
structure ChildCmd where
  version : String
  path : String
  id : Nat
deriving Repr, DecidableEq

/-- Version field of a possibly-zero Cmd. -/
def cmdVersion : Option ChildCmd → String
  | none => ""
  | some c => c.version

/-- Path field of a possibly-zero Cmd. -/
def cmdPath : Option ChildCmd → String
  | none => ""
  | some c => c.path

/-- Process lifecycle events observable during one update-loop iteration. -/
inductive ProcEvent
  | killed (id : Nat)
  | started (id : Nat) (path version : String)
deriving Repr, DecidableEq

/-- upgradeChildProcess from pokemon/pokemon.go: when the previous child is
not the zero Cmd it is signalled to shut down and then unconditionally
killed; then the new binary is started. startOk tells whether
StdinPipe/Start succeed for a path; nextId is the OS id the new process
receives. Returns the emitted events and either the new Cmd or the error
(in which case the Go function returns the zero Cmd). The graceful-shutdown
stdin writes and the grace sleep do not affect the kill/replace outcome and
are not tracked. -/
def upgradeChildProcess (startOk : String → Bool) (nextId : Nat)
    (previousChild : Option ChildCmd) (updateFilePath version : String) :
    List ProcEvent × Except String ChildCmd :=
  let killEvents : List ProcEvent :=
    match previousChild with
    | none => []
    | some c => [ProcEvent.killed c.id]
  if startOk updateFilePath then
    (killEvents ++ [ProcEvent.started nextId updateFilePath version],
      Except.ok ⟨version, updateFilePath, nextId⟩)
  else
    (killEvents, Except.error "start failed")

/-- Supervisor state across update-loop iterations: the prevCmd and
currentCmd locals, the updateFilePath local that survives the iteration,
and the next fresh process id. -/
structure LoopState where
  prevCmd : Option ChildCmd
  currentCmd : Option ChildCmd
  updateFilePath : String
  nextId : Nat
deriving Repr, DecidableEq

/-- Environment of one daemon-mode update-loop iteration: the pair returned
by getLatestVersion (value and whether err was non-nil), the outcome of
downloadUpdateVersion per requested version, and whether starting a binary
at a given path succeeds. -/
structure LoopEnv where
  latestVersion : String
  latestVersionErr : Bool
  download : String → Except String String
  startOk : String → Bool

/-- Result of one iteration of the updateLoop for-loop body: either the
loop continues with a new state (a Go continue or fallthrough to the next
iteration), or updateLoop returns the "failed to use default version"
error. The process events emitted during the iteration are recorded. -/
inductive LoopOutcome
  | continued (s : LoopState) (events : List ProcEvent)
  | exited (events : List ProcEvent)
deriving Repr, DecidableEq

/-- Fallback tail of the updateLoop body (pokemon/pokemon.go): try the
retained previous version when it has a path different from the file just
attempted, then the originally installed executable. Mirrors the Go
reassignment currentCmd, err = upgradeChildProcess(...): after a failed
first fallback currentCmd holds the zero Cmd, so the final fallback kills
nothing. -/
def updateLoopFallback (env : LoopEnv) (exe initialVersion : String)
    (prevCmd currentCmd : Option ChildCmd) (updateFilePath : String) (nextId : Nat)
    (events : List ProcEvent) : LoopOutcome :=
  if cmdPath prevCmd ≠ "" ∧ cmdPath prevCmd ≠ updateFilePath then
    let up := upgradeChildProcess env.startOk nextId currentCmd (cmdPath prevCmd) (cmdVersion prevCmd)
    match up.2 with
    | Except.ok newCmd =>
      LoopOutcome.continued ⟨prevCmd, some newCmd, updateFilePath, nextId + 1⟩ (events ++ up.1)
    | Except.error _ =>
      let up2 := upgradeChildProcess env.startOk nextId none exe initialVersion
      match up2.2 with
      | Except.ok newCmd =>
        LoopOutcome.continued ⟨prevCmd, some newCmd, updateFilePath, nextId + 1⟩
          (events ++ up.1 ++ up2.1)
      | Except.error _ => LoopOutcome.exited (events ++ up.1 ++ up2.1)
  else
    let up2 := upgradeChildProcess env.startOk nextId currentCmd exe initialVersion
    match up2.2 with
    | Except.ok newCmd =>
      LoopOutcome.continued ⟨prevCmd, some newCmd, updateFilePath, nextId + 1⟩ (events ++ up2.1)
    | Except.error _ => LoopOutcome.exited (events ++ up2.1)

/-- One iteration of the daemon-mode updateLoop body (pokemon/pokemon.go,
lines 336-389). Exactly as in the source: a discovery error is only logged
(no continue), so control falls through to downloadUpdateVersion with the
empty version returned alongside the error; only the current-version-equal
check short-circuits the iteration. On a successful download the child is
upgraded; on any failure after that point the fallback tail runs. -/
def updateLoopIter (env : LoopEnv) (exe initialVersion : String) (s : LoopState) : LoopOutcome :=
  let version := env.latestVersion
  if env.latestVersionErr = false ∧ cmdVersion s.currentCmd = version then
    LoopOutcome.continued s []
  else
    match env.download version with
    | Except.error _ =>
      updateLoopFallback env exe initialVersion s.prevCmd s.currentCmd "" s.nextId []
    | Except.ok path =>
      let up := upgradeChildProcess env.startOk s.nextId s.currentCmd path version
      match up.2 with
      | Except.ok newCmd =>
        LoopOutcome.continued ⟨s.currentCmd, some newCmd, path, s.nextId + 1⟩ up.1
      | Except.error _ =>
        updateLoopFallback env exe initialVersion s.prevCmd s.currentCmd path s.nextId up.1

/-- One entry of os.ReadDir on the version root directory
(server/pokemon-server.go updateVersions): the entry name, and the outcome
of opening and Sha-512 hashing the pokemon binary underneath it — some
digest when open and hash both succeed, none when the binary is missing,
unreadable, or hashing fails (each of which the Go loop skips). -/
structure DirEntry where
  name : String
  binary : Option String
deriving Repr, DecidableEq

/-- VersionsCache from server/pokemon-server.go (minus the lock, which
guards the swap but carries no data): the ascending version list
(SemanticVersions.All), its serialized JSON bytes, and the version-string
to Sha-512 map, modelled as an association list with Go map semantics. -/
structure VersionsCache where
  versions : List SemVer
  json : String
  versionToSha512Map : List (String × String)
deriving Repr, DecidableEq

/-- Lookup in the association-list model of a Go map: first matching key. -/
def mapLookup (m : List (String × String)) (k : String) : Option String :=
  match m with
  | [] => none
  | p :: rest => if p.1 = k then some p.2 else mapLookup rest k

/-- Insertion in the association-list model of a Go map: overwrite any
binding of the same key, as m[k] = v does. -/
def mapInsert (m : List (String × String)) (k v : String) : List (String × String) :=
  m.filter (fun p => p.1 ≠ k) ++ [(k, v)]

/-- maps.Equal from the Go standard library on the association-list model:
the two maps contain the same key-value pairs. -/
def mapsEqual (m1 m2 : List (String × String)) : Bool :=
  m1.all (fun p => mapLookup m2 p.1 = some p.2) &&
    m2.all (fun p => mapLookup m1 p.1 = some p.2)

/-- Per-entry body of the updateVersions scan loop, folded over the ReadDir
entries: parse the directory name (skip the entry on failure), open and
hash the binary (skip on failure), otherwise record the digest under the
directory name and append the parsed version. -/
def scanStep (acc : List (String × String) × List SemVer) (entry : DirEntry) :
    List (String × String) × List SemVer :=
  match parseSemVer entry.name with
  | Except.error _ => acc
  | Except.ok version =>
    match entry.binary with
    | none => acc
    | some digest => (mapInsert acc.1 entry.name digest, acc.2 ++ [version])

/-- The scan loop of updateVersions: fold scanStep over the ReadDir
entries starting from an empty map and version list. -/
def scanEntries (entries : List DirEntry) : List (String × String) × List SemVer :=
  entries.foldl scanStep ([], [])

/-- The name-to-digest pairs of exactly those entries whose directory name
parses as a version and whose binary was read and hashed. Specification
yardstick for the scan result. -/
def successMap (entries : List DirEntry) : List (String × String) :=
  entries.filterMap
    (fun entry =>
      match parseSemVer entry.name with
      | Except.error _ => none
      | Except.ok _ =>
        match entry.binary with
        | none => none
        | some digest => some (entry.name, digest))

/-- The parsed versions of exactly those entries whose directory name parses
and whose binary was read and hashed. -/
def succVersions (entries : List DirEntry) : List SemVer :=
  entries.filterMap
    (fun entry =>
      match parseSemVer entry.name with
      | Except.error _ => none
      | Except.ok version =>
        match entry.binary with
        | none => none
        | some _ => some version)

/-- sort.Sort(availableVersions) from updateVersions: a comparison sort
driven by SemVers.Less, modelled as insertion sort over the less relation
(sort.Sort fixes no particular algorithm; any Less-driven sort permutes
the input). -/
def sortSemVers (l : List SemVer) : List SemVer :=
  List.insertionSort (fun a b => less a b = true) l

/-- json.Marshal of common.SemanticVersions: an object with a versions key
holding the array of version strings (SemVer.MarshalJSON serializes the
String field). Version strings reaching this function come from successful
ParseSemVer calls and therefore contain only digits and dots, so JSON
string escaping never fires and plain quoting is exact. -/
def jsonOfVersions (vs : List SemVer) : String :=
  "\x7b\"versions\":[" ++ String.intercalate "," (vs.map (fun v => "\"" ++ v.str ++ "\"")) ++ "]\x7d"

/-- updateVersions from server/pokemon-server.go. The ReadDir outcome is
the explicit argument: none when enumerating the root directory itself
fails (the fatal-for-this-scan case), some entries otherwise. Returns the
(updated, error) pair of the Go function together with the cache contents
after the call: on the equal-maps early return the cache is returned
untouched; otherwise the versions are sorted, serialized and swapped in as
one unit. json.Marshal cannot fail on these values, so that error branch
is unreachable and not modelled. -/
def updateVersions (listing : Option (List DirEntry)) (cache : VersionsCache) :
    Except String (Bool × VersionsCache) :=
  match listing with
  | none => Except.error "failed to read version dir"
  | some entries =>
    let scanned := scanEntries entries
    if mapsEqual scanned.1 cache.versionToSha512Map then
      Except.ok (false, cache)
    else
      let sorted := sortSemVers scanned.2
      Except.ok (true, ⟨sorted, jsonOfVersions sorted, scanned.1⟩)

/-- Response of an HTTP handler as observed by the client: the status line
actually sent (the first WriteHeader call, or 200 if the first write
happens without one) and the body bytes written. -/
structure HttpResponse where
  status : Nat
  body : String
deriving Repr, DecidableEq

/-- The versions-endpoint handler from server/pokemon-server.go main: for a
method other than GET it calls WriteHeader(403) — and then, with no return
statement, still falls through to write the cached versions JSON, which
becomes the 403 response body; for GET the Write sends an implicit 200
with the same body. -/
def versionsHandler (method : String) (cacheJson : String) : HttpResponse :=
  let status := if method = "GET" then 200 else 403
  ⟨status, cacheJson⟩

/-- ASCII digit character for a digit value. -/
def digitChar (d : Nat) : Char := Char.ofNat (48 + d)

/-- String consisting of the given decimal digits, most significant first. -/
def stringOfDigits (ds : List Nat) : String := String.mk (ds.map digitChar)

/-- Numeric value of a list of decimal digits, most significant first
(exact, without any wrapping). -/
def bigEndianValue (ds : List Nat) : Nat := ds.foldl (fun acc d => acc * 10 + d) 0

/-- Wrapping accumulator value built by the ParseSemVer loop after
processing the digits of a section at indices i, i-1, ..., 0, where the
section ends at index L-1: the running uint64 sum of digit times e(place)
terms, in the order the loop adds them. -/
def wrapBelow (ds : List Nat) (L : Nat) : Nat → Nat
  | 0 => ds.getD 0 0 * e (L - 1) % UINT64_MOD
  | k + 1 => wrapBelow ds L k + ds.getD (k + 1) 0 * e (L - 1 - (k + 1)) % UINT64_MOD

/-! Theorems. Claim-level results are marked with their claim id; unnamed
lemmas and examples support them. -/

/-- C2: the ordering predicate SemVers.Less does not coincide with the
lexicographic (major, minor, patch) comparison the spec defines. At the
spec's own example pair 2.9.0 and 2.10.0 the code returns false although
2.9.0 is numerically smaller: the second and third guards compare a.Major
against b.Minor, so the minor tiebreak is never reached when major and the
other operand's minor differ. -/
theorem less_violates_spec_ordering :
    less ⟨2, 9, 0, "2.9.0"⟩ ⟨2, 10, 0, "2.10.0"⟩ = false ∧
    specLexLess ⟨2, 9, 0, "2.9.0"⟩ ⟨2, 10, 0, "2.10.0"⟩ = true := by
  exact ⟨rfl, rfl⟩

/-- C3: getLatestVersion on a response that decodes to the empty version
list returns the pair ("", nil): no version, but also a nil error — the
early return hands back the decoder's err value, which is nil in this
branch — contradicting the claim that an empty list is a failure. An
undecodable response does fail with the decoder's error. -/
theorem getLatestVersion_empty_list_no_error :
    getLatestVersion (Except.ok []) = ("", none) ∧
    getLatestVersion (Except.error "bad body") = ("", some "bad body") := by
  exact ⟨rfl, rfl⟩

/-- C6: the versions endpoint writes status 403 for a non-GET method but,
lacking a return after WriteHeader, still writes the cached version list
as the response body — so the body is served together with the 403,
contrary to the claim that it is not. GET receives 200 with the same
body. -/
theorem versionsHandler_non_get_serves_body :
    versionsHandler "POST" (jsonOfVersions [⟨1, 0, 0, "1.0.0"⟩]) =
      ⟨403, "\x7b\"versions\":[\"1.0.0\"]\x7d"⟩ ∧
    versionsHandler "GET" (jsonOfVersions [⟨1, 0, 0, "1.0.0"⟩]) =
      ⟨200, "\x7b\"versions\":[\"1.0.0\"]\x7d"⟩ := by
  exact ⟨rfl, rfl⟩

/-- C10: downloadUpdateVersion called with the empty version string fails
immediately with the version-was-empty error: no HTTP request is issued,
no temp file is created, and the final path is left exactly as it was,
whatever the rest of the environment would have done. -/
theorem downloadUpdateVersion_empty_version_no_effects (env : DownloadEnv)
    (exeDir : String) (isWindows : Bool) :
    downloadUpdateVersion env exeDir "" isWindows =
      ⟨Except.error DownloadError.emptyVersion, false, false, false, env.finalExists⟩ := by
  rfl

/-- C4: when the digest computed while streaming the body into the temp
file differs from the server-declared digest header, downloadUpdateVersion
returns the Sha-512 mismatch error carrying the expected and actual
digests, no file is present at the final deterministic path, and no file
remains at the temp path (the deferred remove discards it). -/
theorem downloadUpdateVersion_stream_mismatch (env : DownloadEnv)
    (exeDir version : String) (isWindows : Bool)
    (hv : version ≠ "") (hf : env.finalExists = false) (hh : env.httpOk = true)
    (ho : env.openTempOk = true) (hc : env.copyOk = true)
    (hm : env.declaredDigest ≠ env.bodyDigest) :
    downloadUpdateVersion env exeDir version isWindows =
      ⟨Except.error (DownloadError.sha512Mismatch (updateFilePathOf exeDir version isWindows)
        env.declaredDigest env.bodyDigest), true, true, false, false⟩ := by
  simp [downloadUpdateVersion, hv, hf, hh, ho, hc, hm]

/-- Witness for C4 at a concrete environment: a fresh download whose
streamed digest beta does not match the declared digest alpha. -/
theorem downloadUpdateVersion_stream_mismatch_witness :
    ("2.0.0" ≠ "" ∧ (false : Bool) = false ∧ (true : Bool) = true ∧
      "alpha" ≠ "beta") ∧
    downloadUpdateVersion ⟨false, true, "", true, "alpha", true, true, "beta", true, true, true⟩
        "/opt" "2.0.0" false =
      ⟨Except.error (DownloadError.sha512Mismatch (updateFilePathOf "/opt" "2.0.0" false)
        "alpha" "beta"), true, true, false, false⟩ := by
  refine ⟨⟨by decide, rfl, rfl, by decide⟩, ?_⟩
  exact downloadUpdateVersion_stream_mismatch
    ⟨false, true, "", true, "alpha", true, true, "beta", true, true, true⟩
    "/opt" "2.0.0" false (by decide) rfl rfl rfl rfl (by decide)

/-- C8: when the freshly scanned version-to-digest mapping is equal as a
map to the cached one, updateVersions returns updated = false together
with the cache value itself: every field — version list, digest map and
serialized JSON — is the previous one, and no re-serialization happens. -/
theorem updateVersions_unchanged_cache (entries : List DirEntry) (cache : VersionsCache)
    (h : mapsEqual (scanEntries entries).1 cache.versionToSha512Map = true) :
    updateVersions (some entries) cache = Except.ok (false, cache) := by
  simp [updateVersions, h]

/-- Witness for C8: re-scanning a directory with one version identical to
the cached snapshot returns updated = false and the untouched cache. -/
theorem updateVersions_unchanged_cache_witness :
    mapsEqual (scanEntries [⟨"1.0.0", some "aa"⟩]).1
      (⟨[⟨1, 0, 0, "1.0.0"⟩], jsonOfVersions [⟨1, 0, 0, "1.0.0"⟩],
        [("1.0.0", "aa")]⟩ : VersionsCache).versionToSha512Map = true ∧
    updateVersions (some [⟨"1.0.0", some "aa"⟩])
        ⟨[⟨1, 0, 0, "1.0.0"⟩], jsonOfVersions [⟨1, 0, 0, "1.0.0"⟩], [("1.0.0", "aa")]⟩ =
      Except.ok (false,
        ⟨[⟨1, 0, 0, "1.0.0"⟩], jsonOfVersions [⟨1, 0, 0, "1.0.0"⟩], [("1.0.0", "aa")]⟩) := by
  refine ⟨by decide, ?_⟩
  exact updateVersions_unchanged_cache [⟨"1.0.0", some "aa"⟩]
    ⟨[⟨1, 0, 0, "1.0.0"⟩], jsonOfVersions [⟨1, 0, 0, "1.0.0"⟩], [("1.0.0", "aa")]⟩ (by decide)

theorem mapLookup_mem (m : List (String × String)) (k v : String)
    (h : mapLookup m k = some v) : (k, v) ∈ m := by
  induction m with
  | nil => simp [mapLookup] at h
  | cons p rest ih =>
    by_cases hk : p.1 = k
    · simp only [mapLookup, hk, if_pos] at h
      injection h with h
      have hpv : (k, v) = p := by
        rw [← hk, ← h]
      rw [hpv]
      exact List.mem_cons_self _ _
    · simp only [mapLookup, hk, if_neg, if_false] at h
      exact List.mem_cons_of_mem _ (ih h)

theorem mapsEqual_lookup (m1 m2 : List (String × String)) (h : mapsEqual m1 m2 = true) :
    ∀ k, mapLookup m1 k = mapLookup m2 k := by
  intro k
  simp only [mapsEqual, Bool.and_eq_true, List.all_eq_true, decide_eq_true_eq] at h
  obtain ⟨h1, h2⟩ := h
  cases hk : mapLookup m1 k with
  | none =>
    cases hk2 : mapLookup m2 k with
    | none => rfl
    | some v =>
      have hv := h2 _ (mapLookup_mem m2 k v hk2)
      rw [hk] at hv
      exact hv
  | some v =>
    have hv := h1 _ (mapLookup_mem m1 k v hk)
    simpa using hv.symm

theorem parseSemVer_str (s : String) (v : SemVer) (h : parseSemVer s = Except.ok v) :
    v.str = s := by
  simp only [parseSemVer] at h
  split at h
  · cases h
  · split at h
    · cases h
    · split at h
      · cases h
      · split at h
        · injection h with h
          rw [← h]
        · cases h

theorem scan_foldl (entries : List DirEntry) :
    ∀ acc : List (String × String) × List SemVer,
    (∀ p ∈ acc.1, ¬ p.1 ∈ entries.map DirEntry.name) →
    (entries.map DirEntry.name).Nodup →
    List.foldl scanStep acc entries =
      (acc.1 ++ successMap entries, acc.2 ++ succVersions entries) := by
  induction entries with
  | nil =>
    intro acc _ _
    simp [successMap, succVersions]
  | cons entry rest ih =>
    intro acc hdisj hnd
    rw [List.map_cons, List.nodup_cons] at hnd
    have hdisj' : ∀ p ∈ acc.1, ¬ p.1 ∈ rest.map DirEntry.name := by
      intro p hp hmem
      exact hdisj p hp (by rw [List.map_cons]; exact List.mem_cons_of_mem _ hmem)
    rw [List.foldl_cons]
    cases hp : parseSemVer entry.name with
    | error msg =>
      have hstep : scanStep acc entry = acc := by simp [scanStep, hp]
      rw [hstep, ih acc hdisj' hnd.2]
      simp [successMap, succVersions, List.filterMap_cons, hp]
    | ok version =>
      cases hb : entry.binary with
      | none =>
        have hstep : scanStep acc entry = acc := by simp [scanStep, hp, hb]
        rw [hstep, ih acc hdisj' hnd.2]
        simp [successMap, succVersions, List.filterMap_cons, hp, hb]
      | some digest =>
        have hins : mapInsert acc.1 entry.name digest = acc.1 ++ [(entry.name, digest)] := by
          unfold mapInsert
          congr 1
          apply List.filter_eq_self.mpr
          intro p hp'
          have : ¬ p.1 = entry.name := by
            intro hcon
            exact hdisj p hp' (by rw [List.map_cons, hcon]; exact List.mem_cons_self _ _)
          simpa using this
        have hstep : scanStep acc entry =
            (acc.1 ++ [(entry.name, digest)], acc.2 ++ [version]) := by
          simp [scanStep, hp, hb, hins]
        rw [hstep, ih (acc.1 ++ [(entry.name, digest)], acc.2 ++ [version]) ?_ hnd.2]
        · simp [successMap, succVersions, List.filterMap_cons, hp, hb]
        · intro p hp' hmem
          rcases List.mem_append.mp hp' with hacc | hone
          · exact hdisj' p hacc hmem
          · rw [List.mem_singleton] at hone
            rw [hone] at hmem
            exact hnd.1 hmem

theorem scanEntries_eq (entries : List DirEntry)
    (hnd : (entries.map DirEntry.name).Nodup) :
    scanEntries entries = (successMap entries, succVersions entries) := by
  have h := scan_foldl entries ([], []) (by simp) hnd
  simpa [scanEntries] using h

theorem successMap_keys_eq (entries : List DirEntry) :
    (successMap entries).map Prod.fst = (succVersions entries).map SemVer.str := by
  induction entries with
  | nil => rfl
  | cons entry rest ih =>
    simp only [successMap, succVersions, List.filterMap_cons]
    cases hp : parseSemVer entry.name with
    | error msg =>
      simpa [successMap, succVersions] using ih
    | ok version =>
      cases hb : entry.binary with
      | none => simpa [successMap, succVersions] using ih
      | some digest =>
        simp only [List.map_cons]
        rw [parseSemVer_str entry.name version hp]
        exact congrArg (List.cons entry.name) ih

/-- C7: if enumerating the root version directory itself fails the scan
returns an error (and, this being the only effect the function has, the
previous snapshot stands); for a successful enumeration the scan never
errors, its resulting snapshot maps exactly the directory names that parse
as versions and whose binary was read and hashed (as a finite map even
when the equal-maps early return keeps the previous snapshot), and
whenever the snapshot was replaced its map and version list are exactly
the successful entries. The Nodup hypothesis records that ReadDir lists
each directory name once. -/
theorem updateVersions_scan_spec (entries : List DirEntry) (cache : VersionsCache)
    (hnd : (entries.map DirEntry.name).Nodup) :
    updateVersions none cache = Except.error "failed to read version dir" ∧
    ∃ updated c, updateVersions (some entries) cache = Except.ok (updated, c) ∧
      (∀ k, mapLookup c.versionToSha512Map k = mapLookup (successMap entries) k) ∧
      (updated = true → c.versionToSha512Map = successMap entries ∧
        c.versions.Perm (succVersions entries)) := by
  refine ⟨rfl, ?_⟩
  have hscan := scanEntries_eq entries hnd
  by_cases hEq : mapsEqual (scanEntries entries).1 cache.versionToSha512Map = true
  · refine ⟨false, cache, by simp [updateVersions, hEq], ?_, by simp⟩
    intro k
    have hlk := mapsEqual_lookup _ _ hEq k
    rw [hscan] at hlk
    exact hlk.symm
  · refine ⟨true,
      ⟨sortSemVers (succVersions entries),
        jsonOfVersions (sortSemVers (succVersions entries)), successMap entries⟩, ?_, ?_, ?_⟩
    · simp only [updateVersions, hscan] at hEq ⊢
      simp [hEq]
    · intro k
      rfl
    · intro _
      exact ⟨rfl, List.perm_insertionSort _ _⟩

/-- Witness for C7: a scan over one valid version with a readable binary
and one directory with an invalid version name. -/
theorem updateVersions_scan_spec_witness :
    ((([⟨"1.0.0", some "aa"⟩, ⟨"bogus", some "bb"⟩] : List DirEntry).map
      DirEntry.name).Nodup) ∧
    (updateVersions none ⟨[], "", []⟩ = Except.error "failed to read version dir" ∧
    ∃ updated c,
      updateVersions (some [⟨"1.0.0", some "aa"⟩, ⟨"bogus", some "bb"⟩]) ⟨[], "", []⟩ =
        Except.ok (updated, c) ∧
      (∀ k, mapLookup c.versionToSha512Map k =
        mapLookup (successMap [⟨"1.0.0", some "aa"⟩, ⟨"bogus", some "bb"⟩]) k) ∧
      (updated = true →
        c.versionToSha512Map = successMap [⟨"1.0.0", some "aa"⟩, ⟨"bogus", some "bb"⟩] ∧
        c.versions.Perm (succVersions [⟨"1.0.0", some "aa"⟩, ⟨"bogus", some "bb"⟩]))) := by
  refine ⟨by decide, ?_⟩
  exact updateVersions_scan_spec [⟨"1.0.0", some "aa"⟩, ⟨"bogus", some "bb"⟩]
    ⟨[], "", []⟩ (by decide)

/-- C9: every updateVersions call that replaces the cache (returns
updated = true) establishes the cache invariant: the keys of the digest
map are exactly (as a multiset) the canonical strings of the versions in
the version list, and the stored JSON is exactly the serialization of the
version list. The Nodup hypothesis records that ReadDir lists each
directory name once. -/
theorem updateVersions_cache_invariant (entries : List DirEntry) (cache c : VersionsCache)
    (hnd : (entries.map DirEntry.name).Nodup)
    (h : updateVersions (some entries) cache = Except.ok (true, c)) :
    (c.versionToSha512Map.map Prod.fst).Perm (c.versions.map SemVer.str) ∧
    c.json = jsonOfVersions c.versions := by
  have hscan := scanEntries_eq entries hnd
  by_cases hEq : mapsEqual (scanEntries entries).1 cache.versionToSha512Map = true
  · simp [updateVersions, hEq] at h
  · simp only [updateVersions, hEq, if_neg, if_false] at h
    injection h with h
    injection h with hu hc
    rw [← hc]
    constructor
    · simp only [hscan]
      rw [successMap_keys_eq]
      exact (List.Perm.map SemVer.str (List.perm_insertionSort _ _)).symm
    · rfl

/-- Witness for C9: replacing an empty snapshot with one scanned version
yields a cache whose map keys match its version list and whose JSON
serializes that list. -/
theorem updateVersions_cache_invariant_witness :
    ((([⟨"1.0.0", some "aa"⟩] : List DirEntry).map DirEntry.name).Nodup ∧
      updateVersions (some [⟨"1.0.0", some "aa"⟩]) ⟨[], "x", []⟩ =
        Except.ok (true, ⟨[⟨1, 0, 0, "1.0.0"⟩], jsonOfVersions [⟨1, 0, 0, "1.0.0"⟩],
          [("1.0.0", "aa")]⟩)) ∧
    (((⟨[⟨1, 0, 0, "1.0.0"⟩], jsonOfVersions [⟨1, 0, 0, "1.0.0"⟩],
        [("1.0.0", "aa")]⟩ : VersionsCache).versionToSha512Map.map Prod.fst).Perm
      ((⟨[⟨1, 0, 0, "1.0.0"⟩], jsonOfVersions [⟨1, 0, 0, "1.0.0"⟩],
        [("1.0.0", "aa")]⟩ : VersionsCache).versions.map SemVer.str) ∧
      (⟨[⟨1, 0, 0, "1.0.0"⟩], jsonOfVersions [⟨1, 0, 0, "1.0.0"⟩],
        [("1.0.0", "aa")]⟩ : VersionsCache).json =
        jsonOfVersions (⟨[⟨1, 0, 0, "1.0.0"⟩], jsonOfVersions [⟨1, 0, 0, "1.0.0"⟩],
          [("1.0.0", "aa")]⟩ : VersionsCache).versions) := by
  refine ⟨⟨by decide, by decide⟩, ?_⟩
  exact updateVersions_cache_invariant [⟨"1.0.0", some "aa"⟩] ⟨[], "x", []⟩
    ⟨[⟨1, 0, 0, "1.0.0"⟩], jsonOfVersions [⟨1, 0, 0, "1.0.0"⟩], [("1.0.0", "aa")]⟩
    (by decide) (by decide)

/-- C1: an update-loop iteration with a running current child (version
2.0.0, process id 7) in which version discovery fails. The iteration does
not leave the child running: with no continue after the logged discovery
error, control falls into downloadUpdateVersion with the empty version,
which fails, and the fallback tail then kills child 7 and starts a fresh
process (id 8) running the originally installed executable — the current
child is killed and replaced, against the claim that it is neither. -/
theorem updateLoopIter_discovery_error_replaces_child :
    updateLoopIter
      ⟨"", true,
        fun v => Except.mapError (fun _ => "download failed")
          (downloadUpdateVersion ⟨false, true, "", true, "dd", true, true, "dd", true, true, true⟩
            "/opt" v false).result,
        fun _ => true⟩
      "/opt/pokemon" "1.0.0"
      ⟨none, some ⟨"2.0.0", "/opt/pokemon-2.0.0 ", 7⟩, "/opt/pokemon-2.0.0 ", 8⟩ =
    LoopOutcome.continued ⟨none, some ⟨"1.0.0", "/opt/pokemon", 8⟩, "", 9⟩
      [ProcEvent.killed 7, ProcEvent.started 8 "/opt/pokemon" "1.0.0"] := by
  rfl

/-- C5 counterexample: the 24-character input whose major section is
2^64 = 18446744073709551616 is within the accepted length bound and its
major section exceeds the uint64 range, yet ParseSemVer succeeds — the
accumulated section value silently wraps to 0. -/
theorem parseSemVer_overflow_accepted :
    parseSemVer "18446744073709551616.0.0" =
      Except.ok ⟨0, 0, 0, "18446744073709551616.0.0"⟩ := by
  decide


theorem e_eq (n : Nat) : e n = 10 ^ n % UINT64_MOD := by
  induction n with
  | zero => simp [e, UINT64_MOD]
  | succ k ih =>
    rw [e, ih, pow_succ, Nat.mod_mul_mod]

theorem digitChar_toNat (d : Nat) (h : d < 10) : (digitChar d).toNat = 48 + d := by
  interval_cases d <;> rfl

theorem isDigitChar_digitChar (d : Nat) (h : d < 10) : isDigitChar (digitChar d) = true := by
  interval_cases d <;> rfl

theorem digitChar_ne_dot (d : Nat) (h : d < 10) : ¬ digitChar d = '.' := by
  interval_cases d <;> decide

theorem bigEndianValue_append_one (l : List Nat) (d : Nat) :
    bigEndianValue (l ++ [d]) = bigEndianValue l * 10 + d := by
  simp [bigEndianValue, List.foldl_append]

theorem getD_lt_ten (ds : List Nat) (j : Nat) (hj : j < ds.length)
    (hd : ∀ d ∈ ds, d < 10) : ds.getD j 0 < 10 := by
  rw [List.getD_eq_getElem ds 0 hj]
  exact hd _ (List.getElem_mem hj)

theorem parseSemVerLoop_succ_digit (cs : List Char) (k lastDot sv svIndex patch minor : Nat)
    (rd : Bool)
    (hdot : ¬ (rd = false ∧ cs.getD (k + 1) ' ' = '.'))
    (hdig : isDigitChar (cs.getD (k + 1) ' ') = true) :
    parseSemVerLoop cs (k + 1) lastDot sv svIndex rd patch minor =
      parseSemVerLoop cs k lastDot
        ((sv + ((cs.getD (k + 1) ' ').toNat - 48) * e (lastDot - (k + 1)) % UINT64_MOD)
          % UINT64_MOD)
        svIndex false patch minor := by
  match svIndex with
  | 0 => rw [parseSemVerLoop, if_neg hdot, if_pos hdig]
  | 1 => rw [parseSemVerLoop, if_neg hdot, if_pos hdig]
  | n + 2 =>
    rw [parseSemVerLoop, if_neg hdot, if_pos hdig]
    all_goals omega

theorem parseLoop_digits (cs : List Char) (ds : List Nat) (L : Nat) (hL : ds.length = L)
    (hd : ∀ d ∈ ds, d < 10) (hc : ∀ j, j < L → cs.getD j ' ' = digitChar (ds.getD j 0)) :
    ∀ i, i < L → ∀ sv svIndex patch minor (rd : Bool),
    parseSemVerLoop cs i (L - 1) sv svIndex rd patch minor =
      Except.ok ((sv + wrapBelow ds L i) % UINT64_MOD, minor, patch, svIndex) := by
  intro i
  induction i with
  | zero =>
    intro hi sv svIndex patch minor rd
    have hdl : ds.getD 0 0 < 10 := getD_lt_ten ds 0 (by omega) hd
    rw [parseSemVerLoop, hc 0 hi]
    rw [if_pos (isDigitChar_digitChar _ hdl)]
    rw [digitChar_toNat _ hdl]
    have h48 : 48 + ds.getD 0 0 - 48 = ds.getD 0 0 := by omega
    rw [h48]
    rfl
  | succ k ih =>
    intro hi sv svIndex patch minor rd
    have hdl : ds.getD (k + 1) 0 < 10 := getD_lt_ten ds (k + 1) (by omega) hd
    rw [parseSemVerLoop_succ_digit cs k (L - 1) sv svIndex patch minor rd
      (fun hcon => digitChar_ne_dot _ hdl (by rw [← hc (k + 1) hi]; exact hcon.2))
      (by rw [hc (k + 1) hi]; exact isDigitChar_digitChar _ hdl)]
    rw [hc (k + 1) hi, digitChar_toNat _ hdl]
    have h48 : 48 + ds.getD (k + 1) 0 - 48 = ds.getD (k + 1) 0 := by omega
    rw [h48]
    rw [ih (by omega)]
    congr 2
    rw [wrapBelow, Nat.mod_add_mod]
    ring_nf

theorem term_modEq (d x : Nat) : d * e x % UINT64_MOD ≡ d * 10 ^ x [MOD UINT64_MOD] := by
  rw [e_eq]
  calc d * (10 ^ x % UINT64_MOD) % UINT64_MOD
      ≡ d * (10 ^ x % UINT64_MOD) [MOD UINT64_MOD] := Nat.mod_modEq _ _
    _ ≡ d * 10 ^ x [MOD UINT64_MOD] := Nat.ModEq.mul_left d (Nat.mod_modEq _ _)

theorem take_one_getD (ds : List Nat) (h : 0 < ds.length) : ds.take 1 = [ds.getD 0 0] := by
  cases ds with
  | nil => simp at h
  | cons d t => simp

theorem wrapBelow_modEq (ds : List Nat) (L : Nat) (hL : ds.length = L) :
    ∀ k, k < L →
      wrapBelow ds L k ≡ bigEndianValue (ds.take (k + 1)) * 10 ^ (L - 1 - k)
        [MOD UINT64_MOD] := by
  intro k
  induction k with
  | zero =>
    intro h0
    rw [wrapBelow, take_one_getD ds (by omega)]
    have hb : bigEndianValue [ds.getD 0 0] = ds.getD 0 0 := by
      simp [bigEndianValue]
    rw [hb, Nat.sub_zero]
    exact term_modEq _ _
  | succ k ih =>
    intro hk1
    have htake : ds.take (k + 1 + 1) = ds.take (k + 1) ++ [ds.getD (k + 1) 0] := by
      rw [List.getD_eq_getElem ds 0 (by omega)]
      rw [← List.take_concat_get' ds (k + 1) (by omega)]
    rw [wrapBelow, htake, bigEndianValue_append_one]
    have hexp : L - 1 - k = (L - 1 - (k + 1)) + 1 := by omega
    have hih := ih (by omega)
    rw [hexp] at hih
    have hterm := term_modEq (ds.getD (k + 1) 0) (L - 1 - (k + 1))
    have hsum := Nat.ModEq.add hih hterm
    have hrhs : bigEndianValue (ds.take (k + 1)) * 10 ^ (L - 1 - (k + 1) + 1) +
        ds.getD (k + 1) 0 * 10 ^ (L - 1 - (k + 1)) =
        (bigEndianValue (ds.take (k + 1)) * 10 + ds.getD (k + 1) 0) *
          10 ^ (L - 1 - (k + 1)) := by
      ring
    rw [hrhs] at hsum
    exact hsum

theorem parseLoop_tail (cs : List Char) (ds : List Nat) (L : Nat) (hL : ds.length = L)
    (hL1 : 1 ≤ L) (hd : ∀ d ∈ ds, d < 10)
    (hc : ∀ j, j < L → cs.getD j ' ' = digitChar (ds.getD j 0))
    (h4 : cs.getD L ' ' = '.') (h3 : cs.getD (L + 1) ' ' = '0')
    (h2 : cs.getD (L + 2) ' ' = '.') (h1 : cs.getD (L + 3) ' ' = '0') :
    parseSemVerLoop cs (L + 3) (L + 3) 0 0 true 0 0 =
      Except.ok (wrapBelow ds L (L - 1) % UINT64_MOD, 0, 0, 2) := by
  obtain ⟨Lp, rfl⟩ : ∃ Lp, L = Lp + 1 := ⟨L - 1, by omega⟩
  -- step 1: digit at index Lp + 4
  have g1 : cs.getD (Lp + 3 + 1) ' ' = '0' := h1
  show parseSemVerLoop cs (Lp + 3 + 1) (Lp + 3 + 1) 0 0 true 0 0 = _
  rw [parseSemVerLoop_succ_digit cs (Lp + 3) (Lp + 3 + 1) 0 0 0 0 true
    (fun hcon => Bool.noConfusion hcon.1) (by rw [g1]; rfl)]
  rw [g1]
  have hs1 : ((0 : Nat) + ('0'.toNat - 48) * e (Lp + 3 + 1 - (Lp + 3 + 1)) % UINT64_MOD)
      % UINT64_MOD = 0 := by
    have hz : '0'.toNat - 48 = 0 := rfl
    rw [hz, Nat.sub_self]
    simp [e]
  rw [hs1]
  -- step 2: dot at index Lp + 3, section index 0
  have g2 : cs.getD (Lp + 2 + 1) ' ' = '.' := h2
  show parseSemVerLoop cs (Lp + 2 + 1) (Lp + 3 + 1) 0 0 false 0 0 = _
  rw [parseSemVerLoop]
  rw [if_pos ⟨rfl, g2⟩]
  -- step 3: digit at index Lp + 2
  have g3 : cs.getD (Lp + 1 + 1) ' ' = '0' := h3
  show parseSemVerLoop cs (Lp + 1 + 1) (Lp + 2) 0 1 true 0 0 = _
  rw [parseSemVerLoop_succ_digit cs (Lp + 1) (Lp + 2) 0 1 0 0 true
    (fun hcon => Bool.noConfusion hcon.1) (by rw [g3]; rfl)]
  rw [g3]
  have hs3 : ((0 : Nat) + ('0'.toNat - 48) * e (Lp + 2 - (Lp + 1 + 1)) % UINT64_MOD)
      % UINT64_MOD = 0 := by
    have hz : '0'.toNat - 48 = 0 := rfl
    rw [hz]
    simp
  rw [hs3]
  -- step 4: dot at index Lp + 1, section index 1
  have g4 : cs.getD (Lp + 1) ' ' = '.' := h4
  show parseSemVerLoop cs (Lp + 1) (Lp + 2) 0 1 false 0 0 = _
  rw [parseSemVerLoop]
  rw [if_pos ⟨rfl, g4⟩]
  -- step 5: the digits of the major section, indices Lp down to 0
  have hdig := parseLoop_digits cs ds (Lp + 1) hL hd hc Lp (by omega) 0 2 0 0 true
  rw [Nat.add_sub_cancel] at hdig
  rw [hdig, Nat.add_sub_cancel, Nat.zero_add]

/-- C5 (amended): ParseSemVer performs no overflow detection. For every
well-formed input whose major section is an arbitrary digit string (within
the accepted length bound), parsing succeeds and the major component is the
section's numeric value reduced modulo 2^64 — an overflowing section
silently wraps instead of producing an invalid-version error. -/
theorem parseSemVer_wraps_modulo (ds : List Nat) (hne : ds ≠ [])
    (hd : ∀ d ∈ ds, d < 10) (hlen : ds.length + 4 ≤ 255) :
    parseSemVer (stringOfDigits ds ++ ".0.0") =
      Except.ok ⟨bigEndianValue ds % UINT64_MOD, 0, 0, stringOfDigits ds ++ ".0.0"⟩ := by
  have hL1 : 1 ≤ ds.length := List.length_pos.mpr hne
  have hcs : (stringOfDigits ds ++ ".0.0").toList = ds.map digitChar ++ ['.', '0', '.', '0'] := by
    simp [stringOfDigits, String.toList]
  have hsz : (ds.map digitChar ++ ['.', '0', '.', '0']).length = ds.length + 4 := by
    simp
  have hcdig : ∀ j, j < ds.length →
      (ds.map digitChar ++ ['.', '0', '.', '0']).getD j ' ' = digitChar (ds.getD j 0) := by
    intro j hj
    have hjm : j < (ds.map digitChar).length := by simpa using hj
    rw [List.getD_append _ _ _ _ hjm]
    rw [List.getD_eq_getElem _ _ hjm, List.getElem_map, List.getD_eq_getElem ds 0 hj]
  have hml : (ds.map digitChar).length = ds.length := List.length_map _ _
  have hC4 : (ds.map digitChar ++ ['.', '0', '.', '0']).getD ds.length ' ' = '.' := by
    rw [List.getD_append_right _ _ _ _ (by omega)]
    rw [hml, Nat.sub_self]
    rfl
  have hC3 : (ds.map digitChar ++ ['.', '0', '.', '0']).getD (ds.length + 1) ' ' = '0' := by
    rw [List.getD_append_right _ _ _ _ (by omega)]
    rw [hml, Nat.add_sub_cancel_left]
    rfl
  have hC2 : (ds.map digitChar ++ ['.', '0', '.', '0']).getD (ds.length + 2) ' ' = '.' := by
    rw [List.getD_append_right _ _ _ _ (by omega)]
    rw [hml, Nat.add_sub_cancel_left]
    rfl
  have hC1 : (ds.map digitChar ++ ['.', '0', '.', '0']).getD (ds.length + 3) ' ' = '0' := by
    rw [List.getD_append_right _ _ _ _ (by omega)]
    rw [hml, Nat.add_sub_cancel_left]
    rfl
  have htail := parseLoop_tail (ds.map digitChar ++ ['.', '0', '.', '0']) ds ds.length rfl
    hL1 hd hcdig hC4 hC3 hC2 hC1
  have hmod := wrapBelow_modEq ds ds.length rfl (ds.length - 1) (by omega)
  rw [show ds.length - 1 + 1 = ds.length by omega, List.take_length,
    show ds.length - 1 - (ds.length - 1) = 0 by omega, pow_zero, Nat.mul_one] at hmod
  have hw : wrapBelow ds ds.length (ds.length - 1) % UINT64_MOD =
      bigEndianValue ds % UINT64_MOD := hmod
  simp only [parseSemVer, hcs, hsz]
  rw [show ds.length + 4 - 1 = ds.length + 3 by omega]
  rw [if_neg (by omega), if_neg (by omega)]
  rw [htail, hw]
  rfl

/-- Witness for the amended C5 at the digit list 2,5,6: parsing 256.0.0
succeeds with major 256 (= 256 mod 2^64). -/
theorem parseSemVer_wraps_modulo_witness :
    (([2, 5, 6] : List Nat) ≠ [] ∧ (∀ d ∈ ([2, 5, 6] : List Nat), d < 10) ∧
      ([2, 5, 6] : List Nat).length + 4 ≤ 255) ∧
    parseSemVer (stringOfDigits [2, 5, 6] ++ ".0.0") =
      Except.ok ⟨bigEndianValue [2, 5, 6] % UINT64_MOD, 0, 0,
        stringOfDigits [2, 5, 6] ++ ".0.0"⟩ :=
  ⟨⟨by decide, by decide, by decide⟩,
    parseSemVer_wraps_modulo [2, 5, 6] (by decide) (by decide) (by decide)⟩

end Pokemon
